import Mathlib

/-!
Verification of the VQE optimization loop (src/QML/Research/VQE.ipynb).

The notebook's optimization loop is shallowly embedded here:

* parameter vectors are `List ℚ` (exact rationals in place of floats);
* the optimizer's mutable parameter buffers are modelled by a heap
  `Nat → Params`: the objective receives a buffer reference and reads it,
  mirroring Python's by-reference passing of numpy arrays, so that
  aliasing of history entries is observable;
* the module-global `iteration_count` and the (instrumented) number of
  `estimator.run` calls form `GlobalState`;
* `callback_dict = {'params': [], 'energy': []}` is `CallbackDict`; the
  `params` entries hold buffer references, exactly as the Python list
  holds the ndarray objects appended to it;
* `print` side effects and the oracle call are recorded as `Event`s;
* the scipy minimizer is a black box: a run is driven by the list of
  (heap snapshot, buffer reference) queries it makes, and its returned
  `x`/`fun` values are inputs;
* the Hamiltonian of `create_hamiltonian` is built from Pauli matrices
  over Gaussian rationals `QI` and its dense 4x4 matrix is analysed
  exactly.
-/

namespace VQE

/-- A parameter vector: rational components in place of a numpy float array. -/
abbrev Params := List ℚ

/-- The optimizer's parameter buffers: a reference (`Nat`) names a buffer,
the heap gives its current contents.  Mutation of a buffer is modelled by
passing a different heap later. -/
abbrev Heap := Nat → Params

/-- The `callback_dict = {'params': [], 'energy': []}` of the notebook.
`params` holds buffer references, as the Python list holds the appended
ndarray objects themselves (no copy is taken). -/
structure CallbackDict where
  params : List Nat
  energy : List ℚ
deriving DecidableEq

/-- The process-global state: the module-global `iteration_count`, plus an
instrumentation counter for the number of `estimator.run` calls made. -/
structure GlobalState where
  iteration_count : Nat
  oracle_calls : Nat
deriving DecidableEq

/-- Module initialization: `iteration_count = 0` (cell-4); no oracle call yet. -/
def module_init_state : GlobalState := ⟨0, 0⟩

/-- Round-half-to-even on ℚ, the rounding mode of `np.round` and of
Python's fixed-precision formatting. -/
def roundHalfEven (q : ℚ) : ℤ :=
  let f : ℤ := Rat.floor q
  let r : ℚ := q - f
  if r < 1/2 then f
  else if 1/2 < r then f + 1
  else if f % 2 = 0 then f else f + 1

/-- Rounding to `k` decimal places (`np.round(x, k)`, `f"{x:.kf}"`). -/
def npround (k : Nat) (q : ℚ) : ℚ := (roundHalfEven (q * 10 ^ k) : ℚ) / 10 ^ k

/-- Payload of the progress `print` inside `calculate_expectation`:
the iteration counter, the energy at 6 decimal places, and the
parameters rounded to 3 decimal places. -/
structure Notification where
  iter : Nat
  energy : ℚ
  params : Params
deriving DecidableEq

/-- Observable steps of a run, in order: the initial-parameter draw, the
`assert` check, one `estimator.run` call per objective evaluation (tagged
with the counter value used), progress prints, and the elapsed-time print. -/
inductive Event where
  | draw (ps : Params)
  | check (ok : Bool)
  | eval (n : Nat)
  | notify (msg : Notification)
  | elapsedMsg (t : ℚ)
deriving DecidableEq

/-- `calculate_expectation` (cell-5): increments the global
`iteration_count`, runs the estimator on the current buffer contents,
appends the buffer reference and the energy to the callback dict, and
prints progress on every 10th evaluation.  Returns the energy, the new
global state, the new dict, and the emitted events. -/
def calculate_expectation (oracle : Params → ℚ) (heap : Heap) (ref : Nat)
    (g : GlobalState) (d : CallbackDict) :
    ℚ × GlobalState × CallbackDict × List Event :=
  let ic := g.iteration_count + 1
  let ps := heap ref
  let expectation_value := oracle ps
  let g' : GlobalState := ⟨ic, g.oracle_calls + 1⟩
  let d' : CallbackDict := ⟨d.params ++ [ref], d.energy ++ [expectation_value]⟩
  let evs : List Event :=
    Event.eval ic ::
      (if ic % 10 = 0 then
        [Event.notify ⟨ic, npround 6 expectation_value, ps.map (npround 3)⟩]
      else [])
  (expectation_value, g', d', evs)

/-- The black-box minimizer's interaction with the objective: it makes a
sequence of calls, each presenting the heap at call time and the buffer
reference it passes; state and callback dict are threaded through. -/
def run_minimize (oracle : Params → ℚ) (g : GlobalState) (d : CallbackDict) :
    List (Heap × Nat) → GlobalState × CallbackDict × List Event
  | [] => (g, d, [])
  | c :: cs =>
    let step := calculate_expectation oracle c.1 c.2 g d
    let rest := run_minimize oracle step.2.1 step.2.2.1 cs
    (rest.1, rest.2.1, step.2.2.2 ++ rest.2.2)

/-- The error kind the spec assigns to the parameter-count `assert`. -/
inductive VQEError where
  | ConfigurationError
deriving DecidableEq

/-- The object `vqe_optimization` returns: scipy's `result.x` and
`result.fun`, with `result.intermediate_info = callback_dict` attached. -/
structure VQEResult where
  x : Params
  fun_ : ℚ
  intermediate_info : CallbackDict
deriving DecidableEq

/-- `vqe_optimization` (cell-6).  In source order: draw the initial
parameters, `assert ansatz_template.num_parameters == num_params`, create
a fresh empty `callback_dict`, run the minimizer, print the elapsed time,
and return the result with the dict attached.  The draw is an input (its
sampling formula is modelled separately over ℝ); the minimizer's queries
and its returned `x`/`fun` are inputs; the clock readings are inputs. -/
def vqe_optimization (ansatz_num_parameters num_params_cfg : Nat)
    (initial_params : Params) (oracle : Params → ℚ)
    (minimizerCalls : List (Heap × Nat)) (minimizerX : Params) (minimizerFun : ℚ)
    (start_time end_time : ℚ) (g : GlobalState) :
    Except VQEError VQEResult × GlobalState × List Event :=
  if ansatz_num_parameters = num_params_cfg then
    let callback_dict : CallbackDict := ⟨[], []⟩
    let run := run_minimize oracle g callback_dict minimizerCalls
    (Except.ok ⟨minimizerX, minimizerFun, run.2.1⟩, run.1,
      Event.draw initial_params :: Event.check true :: run.2.2
        ++ [Event.elapsedMsg (end_time - start_time)])
  else
    (Except.error VQEError.ConfigurationError, g,
      [Event.draw initial_params, Event.check false])

/-- Reading the recorded parameter history back through a heap: what the
Python `callback_dict['params']` list shows once the buffers have the
given contents. -/
def readback (heap : Heap) (d : CallbackDict) : List Params := d.params.map heap

/-- The counter values at which `estimator.run` was called, in order. -/
def evalNumbers : List Event → List Nat
  | [] => []
  | Event.eval n :: es => n :: evalNumbers es
  | _ :: es => evalNumbers es

/-- `num_params = 5` (cell-2). -/
def num_params : Nat := 5

/-- Gates of the ansatz circuit; rotation gates carry the index of the
`Parameter` object `theta[i]` they reference. -/
inductive Gate where
  | rx (p : Nat) (q : Nat)
  | rz (p : Nat) (q : Nat)
  | ry (p : Nat) (q : Nat)
  | cx (a : Nat) (b : Nat)
  | barrier
deriving DecidableEq

/-- `uccsd_ansatz` (cell-3): the fixed gate sequence of the 2-qubit circuit. -/
def uccsd_ansatz : List Gate :=
  [Gate.rx 0 0, Gate.rz 1 0, Gate.rx 2 1, Gate.rz 3 1,
   Gate.cx 0 1, Gate.ry 4 1, Gate.cx 0 1, Gate.barrier]

/-- The `Parameter` indices a gate references. -/
def gateParams : Gate → List Nat
  | Gate.rx p _ => [p]
  | Gate.rz p _ => [p]
  | Gate.ry p _ => [p]
  | Gate.cx _ _ => []
  | Gate.barrier => []

/-- Qiskit's `circuit.num_parameters`: the number of distinct `Parameter`
objects appearing in the circuit. -/
def circuit_num_parameters (c : List Gate) : Nat :=
  (c.foldr (fun gat acc => gateParams gat ++ acc) []).dedup.length

/-- Gaussian rationals: exact complex numbers with rational real and
imaginary parts, enough to build the Pauli matrices exactly. -/
structure QI where
  re : ℚ
  im : ℚ
deriving DecidableEq

instance : Zero QI := ⟨⟨0, 0⟩⟩

instance : One QI := ⟨⟨1, 0⟩⟩

instance : Add QI := ⟨fun a b => ⟨a.re + b.re, a.im + b.im⟩⟩

instance : Neg QI := ⟨fun a => ⟨-a.re, -a.im⟩⟩

instance : Mul QI :=
  ⟨fun a b => ⟨a.re * b.re - a.im * b.im, a.re * b.im + a.im * b.re⟩⟩

/-- Single-qubit Pauli labels. -/
inductive Pauli where
  | I
  | X
  | Y
  | Z
deriving DecidableEq

/-- The four single-qubit Pauli matrices over the Gaussian rationals. -/
def pauliMat : Pauli → Matrix (Fin 2) (Fin 2) QI
  | Pauli.I => !![1, 0; 0, 1]
  | Pauli.X => !![0, 1; 1, 0]
  | Pauli.Y => !![⟨0, 0⟩, ⟨0, -1⟩; ⟨0, 1⟩, ⟨0, 0⟩]
  | Pauli.Z => !![1, 0; 0, -1]

/-- Index of the 2-qubit computational basis, ordered |q0 q1⟩. -/
abbrev QIdx := Fin 2 × Fin 2

/-- Kronecker product of two single-qubit matrices. -/
def kron (A B : Matrix (Fin 2) (Fin 2) QI) : Matrix QIdx QIdx QI :=
  Matrix.of fun p q => A p.1 q.1 * B p.2 q.2

/-- The term list of `create_hamiltonian` (cell-1):
`[("II", -0.81), ("ZZ", 0.17), ("XX", 0.045), ("YY", -0.045)]`. -/
def pauli_list : List ((Pauli × Pauli) × ℚ) :=
  [((Pauli.I, Pauli.I), -0.81), ((Pauli.Z, Pauli.Z), 0.17),
   ((Pauli.X, Pauli.X), 0.045), ((Pauli.Y, Pauli.Y), -0.045)]

/-- `SparsePauliOp.from_list(pauli_list).to_matrix()`: the dense 4x4
matrix of the Hamiltonian, as the coefficient-weighted sum of the
Kronecker products of the term labels. -/
def create_hamiltonian : Matrix QIdx QIdx QI :=
  pauli_list.foldl
    (fun M t =>
      Matrix.of fun p q =>
        M p q + (⟨t.2, 0⟩ : QI) * kron (pauliMat t.1.1) (pauliMat t.1.2) p q)
    (Matrix.of fun _ _ => (0 : QI))

/-- The real part of the Hamiltonian matrix (its imaginary part vanishes,
proved below). -/
def exact_matrix_re : Matrix QIdx QIdx ℚ :=
  Matrix.of fun p q => (create_hamiltonian p q).re

/-- The Hamiltonian's dense matrix as a real matrix, the input of
`np.linalg.eigh` in cell-8. -/
def hamR : Matrix QIdx QIdx ℝ :=
  Matrix.of fun p q => ((exact_matrix_re p q : ℚ) : ℝ)

/-- μ is the exact minimum eigenvalue of M: it is an eigenvalue, and no
eigenvalue is smaller. -/
def exact_ground_state_energy_is (M : Matrix QIdx QIdx ℝ) (μ : ℝ) : Prop :=
  (∃ v : QIdx → ℝ, v ≠ 0 ∧ M.mulVec v = μ • v) ∧
  (∀ μ' : ℝ, ∀ v : QIdx → ℝ, v ≠ 0 → M.mulVec v = μ' • v → μ ≤ μ')

/-- The initial-parameter draw `np.random.rand(num_params) * 2 * np.pi`
(cell-6, line 144): `u` is the vector of raw uniform samples in [0, 1). -/
noncomputable def initial_params_sample (u : List ℝ) : List ℝ :=
  u.map (fun x => x * 2 * Real.pi)

/-- A concrete parameter buffer heap for the scenarios below: every
reference names a buffer holding `[1, 2]`. -/
def heap_ex : Heap := fun _ => [1, 2]

/-- Mutating buffer 0 of `heap_ex` in place to `[9, 9]`. -/
def heap_mut : Heap := fun r => if r = 0 then [9, 9] else heap_ex r

/-- The callback dict after one objective call on buffer 0 of `heap_ex`. -/
def c1_dict : CallbackDict :=
  (calculate_expectation (fun _ => 0) heap_ex 0 module_init_state ⟨[], []⟩).2.2.1

/-- A first run from module initialization making one objective call. -/
def run_first : Except VQEError VQEResult × GlobalState × List Event :=
  vqe_optimization 5 5 [0, 0, 0, 0, 0] (fun _ => 0) [(heap_ex, 0)] [] 0 0 0
    module_init_state

/-- A second run in the same process, starting from the global state the
first run left behind, again making one objective call. -/
def run_second : Except VQEError VQEResult × GlobalState × List Event :=
  vqe_optimization 5 5 [0, 0, 0, 0, 0] (fun _ => 0) [(heap_ex, 0)] [] 0 0 0
    run_first.2.1

/-- A run with a parameter-count mismatch: an ansatz declaring 4
parameters against a configured count of 5. -/
def run_mismatch : Except VQEError VQEResult × GlobalState × List Event :=
  vqe_optimization 4 5 [0, 0, 0, 0, 0] (fun _ => 0) [] [] 0 0 0
    module_init_state

/-- A run whose clock readings give an elapsed time of 1. -/
def run_elapsed1 : Except VQEError VQEResult × GlobalState × List Event :=
  vqe_optimization 5 5 [0, 0, 0, 0, 0] (fun _ => 0) [] [] 0 0 1
    module_init_state

/-- The same run with clock readings giving an elapsed time of 2. -/
def run_elapsed2 : Except VQEError VQEResult × GlobalState × List Event :=
  vqe_optimization 5 5 [0, 0, 0, 0, 0] (fun _ => 0) [] [] 0 0 2
    module_init_state

/-! ## Helper lemmas -/

theorem evalNumbers_append (a b : List Event) :
    evalNumbers (a ++ b) = evalNumbers a ++ evalNumbers b := by
  induction a with
  | nil => rfl
  | cons e es ih => cases e <;> simp [evalNumbers, ih]

/-- One objective call: counter and oracle-call count up by one, one
reference and one energy appended, the oracle-call event numbered with
the incremented counter. -/
theorem calculate_expectation_spec (oracle : Params → ℚ) (heap : Heap)
    (ref : Nat) (g : GlobalState) (d : CallbackDict) :
    (calculate_expectation oracle heap ref g d).1 = oracle (heap ref) ∧
    (calculate_expectation oracle heap ref g d).2.1
      = ⟨g.iteration_count + 1, g.oracle_calls + 1⟩ ∧
    (calculate_expectation oracle heap ref g d).2.2.1
      = ⟨d.params ++ [ref], d.energy ++ [oracle (heap ref)]⟩ ∧
    evalNumbers (calculate_expectation oracle heap ref g d).2.2.2
      = [g.iteration_count + 1] := by
  refine ⟨rfl, rfl, rfl, ?_⟩
  by_cases h : (g.iteration_count + 1) % 10 = 0 <;>
    simp [calculate_expectation, h, evalNumbers]

/-- The run of the minimizer: counters advance by the number of calls,
the histories are extended in order by one entry per call, and the
oracle-call events are numbered consecutively from the incoming counter
plus one. -/
theorem run_minimize_spec (oracle : Params → ℚ) (calls : List (Heap × Nat)) :
    ∀ (g : GlobalState) (d : CallbackDict),
    (run_minimize oracle g d calls).1.iteration_count
      = g.iteration_count + calls.length ∧
    (run_minimize oracle g d calls).1.oracle_calls
      = g.oracle_calls + calls.length ∧
    (run_minimize oracle g d calls).2.1.params
      = d.params ++ calls.map Prod.snd ∧
    (run_minimize oracle g d calls).2.1.energy
      = d.energy ++ calls.map (fun c => oracle (c.1 c.2)) ∧
    evalNumbers (run_minimize oracle g d calls).2.2
      = List.range' (g.iteration_count + 1) calls.length := by
  induction calls with
  | nil => intro g d; simp [run_minimize, evalNumbers]
  | cons c cs ih =>
    intro g d
    have hc := calculate_expectation_spec oracle c.1 c.2 g d
    have hrest := ih (calculate_expectation oracle c.1 c.2 g d).2.1
      (calculate_expectation oracle c.1 c.2 g d).2.2.1
    simp only [run_minimize, evalNumbers_append, hc.2.1, hc.2.2.1] at hrest ⊢
    refine ⟨by rw [hrest.1, List.length_cons]; omega,
      by rw [hrest.2.1, List.length_cons]; omega, ?_, ?_, ?_⟩
    · simp [hrest.2.2.1]
    · simp [hrest.2.2.2.1, hc.1]
    · rw [hrest.2.2.2.2, hc.2.2.2]
      simp [List.range'_succ]

/-- Unfolding `vqe_optimization` when the parameter counts agree. -/
theorem vqe_optimization_ok (n : Nat) (init : Params) (oracle : Params → ℚ)
    (calls : List (Heap × Nat)) (mx : Params) (mf : ℚ) (t0 t1 : ℚ)
    (g : GlobalState) :
    vqe_optimization n n init oracle calls mx mf t0 t1 g
      = (Except.ok ⟨mx, mf, (run_minimize oracle g ⟨[], []⟩ calls).2.1⟩,
         (run_minimize oracle g ⟨[], []⟩ calls).1,
         Event.draw init :: Event.check true ::
           ((run_minimize oracle g ⟨[], []⟩ calls).2.2
             ++ [Event.elapsedMsg (t1 - t0)])) := by
  simp [vqe_optimization]

/-- Unfolding `vqe_optimization` on a parameter-count mismatch. -/
theorem vqe_optimization_mismatch (a n : Nat) (h : a ≠ n) (init : Params)
    (oracle : Params → ℚ) (calls : List (Heap × Nat)) (mx : Params)
    (mf : ℚ) (t0 t1 : ℚ) (g : GlobalState) :
    vqe_optimization a n init oracle calls mx mf t0 t1 g
      = (Except.error VQEError.ConfigurationError, g,
         [Event.draw init, Event.check false]) := by
  simp [vqe_optimization, h]

/-- The minimizer's final callback dict, in closed form. -/
theorem run_minimize_dict (oracle : Params → ℚ) (calls : List (Heap × Nat))
    (g : GlobalState) :
    (run_minimize oracle g ⟨[], []⟩ calls).2.1
      = ⟨calls.map Prod.snd, calls.map (fun c => oracle (c.1 c.2))⟩ := by
  have hr := run_minimize_spec oracle calls g ⟨[], []⟩
  have h1 := hr.2.2.1
  have h2 := hr.2.2.2.1
  cases hx : (run_minimize oracle g ⟨[], []⟩ calls).2.1
  rw [hx] at h1 h2
  simp only [] at h1 h2
  simp_all

/-! ## Claim C1: by-value snapshotting of recorded parameters -/

/-- Claim C1, counterexample: `calculate_expectation` appends the buffer
object itself, not a copy.  After one call on buffer 0 (contents `[1, 2]`
at call time), mutating that buffer to `[9, 9]` changes what the recorded
history shows, refuting the claim that the recorded parameters are
unchanged under subsequent mutations of the optimizer's buffer. -/
theorem C1_counterexample :
    readback heap_mut c1_dict = [[9, 9]] ∧
    readback heap_ex c1_dict = [[1, 2]] ∧
    ([[9, 9]] : List Params) ≠ [[1, 2]] := by decide

/-- Claim C1, amended: the appended `EvaluationRecord` stores a reference
(alias) to the parameter buffer the optimizer passed in, not a by-value
snapshot: under any later heap the recorded entry reads as that buffer's
current contents, so it tracks subsequent mutations instead of being
isolated from them. -/
theorem C1_theorem (oracle : Params → ℚ) (heap h' : Heap) (ref : Nat)
    (g : GlobalState) (d : CallbackDict) :
    (calculate_expectation oracle heap ref g d).2.2.1.params
      = d.params ++ [ref] ∧
    readback h' (calculate_expectation oracle heap ref g d).2.2.1
      = readback h' d ++ [h' ref] := by
  simp [calculate_expectation, readback]

/-! ## Claim C2: run-start state of counter and history -/

/-- Claim C2, counterexample: `iteration_count` is a process-wide global
that `vqe_optimization` never resets.  After a first run that made one
objective call, the global counter entering a second run is 1, not 0,
refuting "the evaluation counter equals 0 at run start" for every run. -/
theorem C2_counterexample :
    run_first.2.1.iteration_count = 1 ∧ (1 : Nat) ≠ 0 := by decide

/-- Claim C2, amended: the `OptimizationHistory` is empty at run start
(the callback dict is created fresh inside `vqe_optimization`, so the
returned history holds exactly this run's records), but the evaluation
counter is a process-wide global: it is 0 only at module initialization,
and a run leaves it advanced by its number of evaluations, carrying it
over into any later run in the same process. -/
theorem C2_theorem (n : Nat) (init : Params) (oracle : Params → ℚ)
    (calls : List (Heap × Nat)) (mx : Params) (mf : ℚ) (t0 t1 : ℚ)
    (g : GlobalState) :
    module_init_state.iteration_count = 0 ∧
    (∀ r, (vqe_optimization n n init oracle calls mx mf t0 t1 g).1
        = Except.ok r →
      r.intermediate_info
        = ⟨calls.map Prod.snd, calls.map (fun c => oracle (c.1 c.2))⟩) ∧
    (vqe_optimization n n init oracle calls mx mf t0 t1 g).2.1.iteration_count
      = g.iteration_count + calls.length := by
  refine ⟨rfl, ?_, ?_⟩
  · intro r h
    rw [vqe_optimization_ok] at h
    simp only [Except.ok.injEq] at h
    rw [← h, run_minimize_dict]
  · rw [vqe_optimization_ok]
    exact (run_minimize_spec oracle calls g ⟨[], []⟩).1

/-! ## Claim C3: fail-fast ordering of the parameter-count check -/

/-- Claim C3, counterexample: on a mismatch (ansatz declares 4, configured
count 5) the run does fail with `ConfigurationError` and makes no oracle
call — but the initial parameter vector has already been drawn before the
check: the trace begins with a `draw` event, refuting "before drawing the
initial parameter vector". -/
theorem C3_counterexample :
    run_mismatch.1 = Except.error VQEError.ConfigurationError ∧
    run_mismatch.2.1.oracle_calls = 0 ∧
    run_mismatch.2.2 = [Event.draw [0, 0, 0, 0, 0], Event.check false] ∧
    Event.draw [0, 0, 0, 0, 0] ∈ run_mismatch.2.2 :=
  ⟨rfl, rfl, by decide, by decide⟩

/-- Claim C3, amended: on a parameter-count mismatch the run fails with a
`ConfigurationError` before any oracle call (the global state, including
the oracle call count, is untouched), but only after the initial
parameter vector has been drawn: the trace is the draw followed by the
failed check. -/
theorem C3_theorem (a n : Nat) (h : a ≠ n) (init : Params)
    (oracle : Params → ℚ) (calls : List (Heap × Nat)) (mx : Params)
    (mf : ℚ) (t0 t1 : ℚ) (g : GlobalState) :
    (vqe_optimization a n init oracle calls mx mf t0 t1 g).1
      = Except.error VQEError.ConfigurationError ∧
    (vqe_optimization a n init oracle calls mx mf t0 t1 g).2.1.oracle_calls
      = g.oracle_calls ∧
    (vqe_optimization a n init oracle calls mx mf t0 t1 g).2.2
      = [Event.draw init, Event.check false] := by
  rw [vqe_optimization_mismatch a n h]
  exact ⟨rfl, rfl, rfl⟩

/-- Witness for C3's amended theorem at the concrete mismatch 4 ≠ 5. -/
theorem C3_witness :
    (vqe_optimization 4 5 [0, 0, 0, 0, 0] (fun _ => 0) [] [] 0 0 0
        module_init_state).1
      = Except.error VQEError.ConfigurationError ∧
    (vqe_optimization 4 5 [0, 0, 0, 0, 0] (fun _ => 0) [] [] 0 0 0
        module_init_state).2.1.oracle_calls
      = module_init_state.oracle_calls ∧
    (vqe_optimization 4 5 [0, 0, 0, 0, 0] (fun _ => 0) [] [] 0 0 0
        module_init_state).2.2
      = [Event.draw [0, 0, 0, 0, 0], Event.check false] :=
  C3_theorem 4 5 (by decide) [0, 0, 0, 0, 0] (fun _ => 0) [] [] 0 0 0
    module_init_state

/-! ## Claim C4: one record per invocation, consecutive numbering -/

/-- Claim C4, counterexample: the evaluation counter is not reset per
run, so the first evaluation of a second run in the same process is
numbered 2, not 1, refuting "the first evaluation is numbered 1" as a
statement about every run. -/
theorem C4_counterexample :
    evalNumbers run_second.2.2 = [2] ∧ (2 : Nat) ≠ 1 := by decide

/-- Claim C4, amended: each objective invocation increments the
evaluation counter by exactly 1 before use and appends exactly one
record, so after any sequence of invocations the history equals the
incoming history extended by one record per invocation, in order (past
entries never deleted or reordered), and the evaluation numbers are the
consecutive range starting at the incoming counter plus one — which is 1
exactly when the run starts from the module-initial counter 0. -/
theorem C4_theorem (oracle : Params → ℚ) (calls : List (Heap × Nat))
    (g : GlobalState) (d : CallbackDict) :
    (run_minimize oracle g d calls).2.1.params
      = d.params ++ calls.map Prod.snd ∧
    (run_minimize oracle g d calls).2.1.energy
      = d.energy ++ calls.map (fun c => oracle (c.1 c.2)) ∧
    (run_minimize oracle g d calls).1.iteration_count
      = g.iteration_count + calls.length ∧
    evalNumbers (run_minimize oracle g d calls).2.2
      = List.range' (g.iteration_count + 1) calls.length := by
  have hr := run_minimize_spec oracle calls g d
  exact ⟨hr.2.2.1, hr.2.2.2.1, hr.1, hr.2.2.2.2⟩

/-! ## Claim C5: progress notification exactly every 10th evaluation -/

/-- Claim C5, confirmed: an objective invocation emits a progress
notification iff the incremented counter is a positive multiple of 10;
any emitted notification carries the counter, the energy rounded to 6
decimal places, and the parameters rounded to 3 decimal places; and the
returned energy is the oracle's value regardless of the notification. -/
theorem C5_theorem (oracle : Params → ℚ) (heap : Heap) (ref : Nat)
    (g : GlobalState) (d : CallbackDict) :
    ((∃ msg, Event.notify msg
        ∈ (calculate_expectation oracle heap ref g d).2.2.2) ↔
      ∃ k, 0 < k ∧ g.iteration_count + 1 = 10 * k) ∧
    (∀ msg, Event.notify msg
        ∈ (calculate_expectation oracle heap ref g d).2.2.2 →
      msg = ⟨g.iteration_count + 1, npround 6 (oracle (heap ref)),
             (heap ref).map (npround 3)⟩) ∧
    (calculate_expectation oracle heap ref g d).1 = oracle (heap ref) := by
  by_cases h : (g.iteration_count + 1) % 10 = 0
  · refine ⟨?_, ?_, rfl⟩
    · simp only [calculate_expectation, h, if_true]
      constructor
      · intro _
        exact ⟨(g.iteration_count + 1) / 10, by omega, by omega⟩
      · intro _
        exact ⟨⟨g.iteration_count + 1, npround 6 (oracle (heap ref)),
          (heap ref).map (npround 3)⟩, by simp⟩
    · intro msg hmsg
      simp only [calculate_expectation, h, if_true] at hmsg
      simp only [List.mem_cons, List.mem_singleton] at hmsg
      rcases hmsg with h1 | h1 | h1
      · exact absurd h1 (by simp)
      · exact (Event.notify.injEq _ _).mp h1.symm ▸ rfl
      · exact absurd h1 (by simp at h1)
  · refine ⟨?_, ?_, rfl⟩
    · simp only [calculate_expectation, h, if_false]
      constructor
      · intro ⟨msg, hmsg⟩
        simp at hmsg
      · intro ⟨k, hk, he⟩
        omega
    · intro msg hmsg
      simp only [calculate_expectation, h, if_false] at hmsg
      simp at hmsg

/-! ## Claim C7: contents of the returned result -/

/-- Claim C7, counterexample: two runs identical except for their clock
readings (elapsed 1 versus elapsed 2) return exactly the same result
object, so the returned `OptimizationResult` does not contain the elapsed
wall-clock duration; the elapsed time only appears in the printed trace. -/
theorem C7_counterexample :
    run_elapsed1.1 = run_elapsed2.1 ∧
    Event.elapsedMsg (1 - 0) ∈ run_elapsed1.2.2 ∧
    Event.elapsedMsg (2 - 0) ∈ run_elapsed2.2.2 ∧
    (1 - 0 : ℚ) ≠ 2 - 0 := by
  refine ⟨rfl, ?_, ?_, by norm_num⟩
  · simp [run_elapsed1, vqe_optimization, run_minimize]
  · simp [run_elapsed2, vqe_optimization, run_minimize]

/-- Claim C7, amended: on a successful run the returned result contains
the minimizer's optimized parameter vector, its final energy scalar, and
the complete evaluation history of the run; the elapsed wall-clock
duration is only emitted as a console message, not included in the
result. -/
theorem C7_theorem (init : Params) (oracle : Params → ℚ)
    (calls : List (Heap × Nat)) (mx : Params) (mf : ℚ) (t0 t1 : ℚ)
    (g : GlobalState) :
    (vqe_optimization 5 5 init oracle calls mx mf t0 t1 g).1
      = Except.ok ⟨mx, mf,
          ⟨calls.map Prod.snd, calls.map (fun c => oracle (c.1 c.2))⟩⟩ ∧
    Event.elapsedMsg (t1 - t0)
      ∈ (vqe_optimization 5 5 init oracle calls mx mf t0 t1 g).2.2 := by
  rw [vqe_optimization_ok, run_minimize_dict]
  exact ⟨rfl, by simp⟩

/-! ## Claim C8: no caching, one oracle call per invocation -/

/-- Claim C8, confirmed: every objective invocation calls the oracle
exactly once (the call count rises by 1 each time, by the length of the
call sequence over a run, duplicates included), the returned energy is
the oracle's fresh value on the current buffer contents independent of
any history, and the recorded energy trajectory is a function of the
queried parameter values and the oracle alone — so a deterministic
oracle and a fixed query sequence reproduce the identical trajectory. -/
theorem C8_theorem (oracle : Params → ℚ) (heap : Heap) (ref : Nat)
    (g : GlobalState) (d : CallbackDict) (calls : List (Heap × Nat)) :
    (calculate_expectation oracle heap ref g d).2.1.oracle_calls
      = g.oracle_calls + 1 ∧
    (calculate_expectation oracle heap ref g d).1 = oracle (heap ref) ∧
    (run_minimize oracle g d calls).1.oracle_calls
      = g.oracle_calls + calls.length ∧
    (run_minimize oracle g d calls).2.1.energy
      = d.energy ++ calls.map (fun c => oracle (c.1 c.2)) := by
  have hr := run_minimize_spec oracle calls g d
  exact ⟨rfl, rfl, hr.2.1, hr.2.2.2.1⟩

/-! ## Claim C10: the shipped configuration never trips the check -/

/-- Claim C10, confirmed: the shipped ansatz references exactly the five
distinct parameters θ0..θ4, so its declared parameter count equals the
configured `num_params = 5`; consequently the parameter-count check's
failure branch is unreachable and every run under the shipped
configuration proceeds past the check to optimization. -/
theorem C10_theorem :
    circuit_num_parameters uccsd_ansatz = num_params ∧
    ∀ (init : Params) (oracle : Params → ℚ) (calls : List (Heap × Nat))
      (mx : Params) (mf : ℚ) (t0 t1 : ℚ) (g : GlobalState), ∃ r,
      (vqe_optimization (circuit_num_parameters uccsd_ansatz) num_params
          init oracle calls mx mf t0 t1 g).1 = Except.ok r := by
  have h5 : circuit_num_parameters uccsd_ansatz = num_params := by decide
  refine ⟨h5, ?_⟩
  intro init oracle calls mx mf t0 t1 g
  rw [h5, vqe_optimization_ok]
  exact ⟨_, rfl⟩

/-! ## Claim C9: the initial parameter draw -/

/-- Claim C9, confirmed: scaling a raw uniform sample vector from [0, 1)
by 2π yields a vector of the configured length with every component in
[0, 2π); and the scaling map carries the uniform law of [0, 1) to the
uniform law of [0, 2π): for any subinterval [a, b) of [0, 2π), the set of
raw samples landing in it has Lebesgue measure (b - a)/(2π). -/
theorem C9_theorem (u : List ℝ) (hlen : u.length = num_params)
    (hu : ∀ x ∈ u, 0 ≤ x ∧ x < 1) (a b : ℝ) (ha : 0 ≤ a) (hab : a ≤ b)
    (hb : b ≤ 2 * Real.pi) :
    (initial_params_sample u).length = num_params ∧
    (∀ y ∈ initial_params_sample u, 0 ≤ y ∧ y < 2 * Real.pi) ∧
    MeasureTheory.volume
        (Set.preimage (fun x => x * 2 * Real.pi) (Set.Ico a b)
          ∩ Set.Ico (0 : ℝ) 1)
      = ENNReal.ofReal ((b - a) / (2 * Real.pi)) := by
  have hπ : (0 : ℝ) < 2 * Real.pi := by positivity
  refine ⟨by simpa [initial_params_sample] using hlen, ?_, ?_⟩
  · intro y hy
    rcases List.mem_map.mp hy with ⟨x, hx, rfl⟩
    obtain ⟨hx0, hx1⟩ := hu x hx
    constructor
    · positivity
    · calc x * 2 * Real.pi < 1 * (2 * Real.pi) := by
            rw [mul_assoc]
            exact mul_lt_mul_of_pos_right hx1 hπ
        _ = 2 * Real.pi := one_mul _
  · have hset : Set.preimage (fun x => x * 2 * Real.pi) (Set.Ico a b)
        ∩ Set.Ico (0 : ℝ) 1
        = Set.Ico (a / (2 * Real.pi)) (b / (2 * Real.pi)) := by
      ext x
      simp only [Set.mem_inter_iff, Set.mem_preimage, Set.mem_Ico]
      constructor
      · intro ⟨⟨hax, hxb⟩, _, _⟩
        constructor
        · rw [div_le_iff₀ hπ]
          linarith [hax, mul_assoc x 2 Real.pi]
        · rw [lt_div_iff₀ hπ]
          linarith [hxb, mul_assoc x 2 Real.pi]
      · intro ⟨hax, hxb⟩
        have h1 : a ≤ x * (2 * Real.pi) := (div_le_iff₀ hπ).mp hax
        have h2 : x * (2 * Real.pi) < b := (lt_div_iff₀ hπ).mp hxb
        have h3 : 0 ≤ x := by
          have := div_nonneg ha hπ.le
          linarith [le_trans this hax]
        have h4 : x < 1 := by
          have hb2 : b / (2 * Real.pi) ≤ 1 := by
            rw [div_le_one hπ]; exact hb
          linarith [lt_of_lt_of_le hxb hb2]
        exact ⟨⟨by linarith [mul_assoc x 2 Real.pi],
          by linarith [mul_assoc x 2 Real.pi]⟩, h3, h4⟩
    rw [hset, Real.volume_Ico, div_sub_div_same]

/-- Witness for C9 at the concrete sample vector of five components 1/2,
with the subinterval [0, π) of [0, 2π). -/
theorem C9_witness :
    (initial_params_sample [1/2, 1/2, 1/2, 1/2, 1/2]).length = num_params ∧
    (∀ y ∈ initial_params_sample [1/2, 1/2, 1/2, 1/2, 1/2],
      0 ≤ y ∧ y < 2 * Real.pi) ∧
    MeasureTheory.volume
        (Set.preimage (fun x => x * 2 * Real.pi) (Set.Ico 0 Real.pi)
          ∩ Set.Ico (0 : ℝ) 1)
      = ENNReal.ofReal ((Real.pi - 0) / (2 * Real.pi)) :=
  C9_theorem [1/2, 1/2, 1/2, 1/2, 1/2] rfl (by norm_num) 0 Real.pi
    le_rfl Real.pi_nonneg (by linarith [Real.pi_pos])

/-! ## Claim C6: exact ground-state energy of the concrete Hamiltonian -/

@[simp] theorem QI_re_add (a b : QI) : (a + b).re = a.re + b.re := rfl

@[simp] theorem QI_im_add (a b : QI) : (a + b).im = a.im + b.im := rfl

@[simp] theorem QI_re_mul (a b : QI) :
    (a * b).re = a.re * b.re - a.im * b.im := rfl

@[simp] theorem QI_im_mul (a b : QI) :
    (a * b).im = a.re * b.im + a.im * b.re := rfl

@[simp] theorem QI_re_zero : (0 : QI).re = 0 := rfl

@[simp] theorem QI_im_zero : (0 : QI).im = 0 := rfl

@[simp] theorem QI_re_one : (1 : QI).re = 1 := rfl

@[simp] theorem QI_im_one : (1 : QI).im = 0 := rfl

@[simp] theorem QI_re_neg (a : QI) : (-a).re = -a.re := rfl

@[simp] theorem QI_im_neg (a : QI) : (-a).im = -a.im := rfl

/-- The matrix built by `create_hamiltonian` is real: every entry has
vanishing imaginary part. -/
theorem create_hamiltonian_im_zero : ∀ p q : QIdx,
    (create_hamiltonian p q).im = 0 := by
  intro p q
  fin_cases p <;> fin_cases q <;>
    simp [create_hamiltonian, pauli_list, kron, pauliMat]

/-- Claim C6, confirmed: the dense 4x4 matrix of the Hamiltonian
{II: -0.81, ZZ: 0.17, XX: 0.045, YY: -0.045} is real, and its exact
minimum eigenvalue is -0.98: the basis vector at index (0, 1) is an
eigenvector of eigenvalue -0.98, and every eigenvalue is at least
-0.98. -/
theorem C6_theorem :
    (∀ p q : QIdx, (create_hamiltonian p q).im = 0) ∧
    exact_ground_state_energy_is hamR (-0.98) := by
  refine ⟨create_hamiltonian_im_zero, ⟨?_, ?_⟩, ?_⟩
  · exact fun p => if p = ((0 : Fin 2), (1 : Fin 2)) then (1 : ℝ) else 0
  · constructor
    · intro h
      have := congrFun h ((0 : Fin 2), (1 : Fin 2))
      simp at this
    · funext p
      fin_cases p <;>
        simp [Matrix.mulVec, Matrix.dotProduct, Fintype.sum_prod_type,
          Fin.sum_univ_two, hamR, exact_matrix_re, Matrix.of_apply,
          create_hamiltonian, pauli_list, kron, pauliMat, Pi.smul_apply,
          smul_eq_mul, Prod.ext_iff] <;> norm_num
  · intro μ v hv hE
    have e00 := congrFun hE ((0 : Fin 2), (0 : Fin 2))
    have e01 := congrFun hE ((0 : Fin 2), (1 : Fin 2))
    have e10 := congrFun hE ((1 : Fin 2), (0 : Fin 2))
    have e11 := congrFun hE ((1 : Fin 2), (1 : Fin 2))
    simp only [Matrix.mulVec, Matrix.dotProduct, Fintype.sum_prod_type,
      Fin.sum_univ_two, hamR, exact_matrix_re, Matrix.of_apply,
      create_hamiltonian, pauli_list, kron, pauliMat, Pi.smul_apply,
      smul_eq_mul, List.foldl_cons, List.foldl_nil, QI_re_add, QI_im_add,
      QI_re_mul, QI_im_mul, QI_re_zero, QI_im_zero, QI_re_one, QI_im_one,
      QI_re_neg, QI_im_neg] at e00 e01 e10 e11
    norm_num [Matrix.cons_val_zero, Matrix.cons_val_one, Matrix.head_cons]
      at e00 e01 e10 e11
    have hcases : v 0 ≠ 0 ∨ v ((0 : Fin 2), (1 : Fin 2)) ≠ 0
        ∨ v ((1 : Fin 2), (0 : Fin 2)) ≠ 0 ∨ v 1 ≠ 0 := by
      by_contra hq
      push_neg at hq
      obtain ⟨h1, h2, h3, h4⟩ := hq
      apply hv
      funext p
      fin_cases p
      · exact h1
      · exact h2
      · exact h3
      · exact h4
    have key : (μ + 49/50) * (v 0 ^ 2 + v ((0 : Fin 2), (1 : Fin 2)) ^ 2
          + v ((1 : Fin 2), (0 : Fin 2)) ^ 2 + v 1 ^ 2)
        = 9/100 * (v 0 + v 1) ^ 2 + 1/4 * (v 0 ^ 2 + v 1 ^ 2) := by
      linear_combination (-(v 0)) * e00 - (v ((0 : Fin 2), (1 : Fin 2))) * e01
        - (v ((1 : Fin 2), (0 : Fin 2))) * e10 - (v 1) * e11
    have hS : 0 < v 0 ^ 2 + v ((0 : Fin 2), (1 : Fin 2)) ^ 2
        + v ((1 : Fin 2), (0 : Fin 2)) ^ 2 + v 1 ^ 2 := by
      rcases hcases with h | h | h | h <;>
        linarith [sq_pos_of_ne_zero h, sq_nonneg (v 0),
          sq_nonneg (v ((0 : Fin 2), (1 : Fin 2))),
          sq_nonneg (v ((1 : Fin 2), (0 : Fin 2))), sq_nonneg (v 1)]
    nlinarith [key, hS, sq_nonneg (v 0 + v 1), sq_nonneg (v 0),
      sq_nonneg (v 1)]

end VQE
